import Mathlib

/-!
Formal model of the gym-idsgame core: the network grid and its node-id
maps (`network_config.py`), action interpretation and legality checks
(`idsgame_util.py`, `game_config.py`), and the PPO trainer's opponent pool,
rollout bookkeeping and episode counters (`ppo.py`, `base_class.py`).
Python functions that can raise are embedded as `Option`/`Except` values,
`none`/`error` standing for the exception.
-/

namespace IdsGame

/-- Node types of grid cells. Modelled from the spec: each grid cell has a
NodeType, one of START, EMPTY, SERVER, DATA (the enum file node_type.py is
not part of the sources; only the four constant names matter, since every
use compares values for equality). -/
inductive NodeType where
  | EMPTY
  | START
  | DATA
  | SERVER
deriving DecidableEq

/-- Row-major list of all grid coordinates, mirroring the nested
`for i in range(num_rows): for j in range(num_cols)` loops of
NetworkConfig. -/
def cells (num_rows num_cols : Nat) : List (Nat × Nat) :=
  (List.range num_rows).flatMap (fun i => (List.range num_cols).map (fun j => (i, j)))

/-- NetworkConfig.__default_graph_layout: START at bottom row (index
num_rows-1) in the middle column, DATA at top row (index 0) in the middle
column, SERVER everywhere in between, EMPTY for the rest.  The branch on
`i == num_rows - 1` is tested first, exactly as in the source. -/
def default_graph_layout (num_rows num_cols i j : Nat) : NodeType :=
  if i = num_rows - 1 then
    (if j = num_cols / 2 then NodeType.START else NodeType.EMPTY)
  else if i = 0 then
    (if j = num_cols / 2 then NodeType.DATA else NodeType.EMPTY)
  else NodeType.SERVER

/-- NetworkConfig.node_list: the node types of the non-EMPTY cells in
row-major order (the loop appends `graph_layout[i][j]` whenever it is not
EMPTY). -/
def node_list (num_rows num_cols : Nat) : List NodeType :=
  ((cells num_rows num_cols).filter
      (fun ij => decide (default_graph_layout num_rows num_cols ij.1 ij.2 ≠ NodeType.EMPTY))).map
    (fun ij => default_graph_layout num_rows num_cols ij.1 ij.2)

/-- Scanning loop of NetworkConfig.get_node_pos.  At each cell the source
first tests `node_id == count` and returns the cell, and only afterwards
increments `count` when the cell is not EMPTY; the order of the two tests
is kept exactly as written. -/
def get_node_pos_go (num_rows num_cols node_id : Nat) :
    List (Nat × Nat) → Nat → Option (Nat × Nat)
  | [], _ => none
  | ij :: rest, count =>
    if node_id = count then some ij
    else if default_graph_layout num_rows num_cols ij.1 ij.2 ≠ NodeType.EMPTY then
      get_node_pos_go num_rows num_cols node_id rest (count + 1)
    else
      get_node_pos_go num_rows num_cols node_id rest count

/-- NetworkConfig.get_node_pos; `none` models the final
`raise ValueError("Invalid node id")`. -/
def get_node_pos (num_rows num_cols node_id : Nat) : Option (Nat × Nat) :=
  get_node_pos_go num_rows num_cols node_id (cells num_rows num_cols) 0

/-- Scanning loop of NetworkConfig.get_node_id: at the queried cell it
returns -1 for an EMPTY cell and the running count otherwise; the count is
incremented on non-EMPTY cells. -/
def get_node_id_go (num_rows num_cols : Nat) (pos : Nat × Nat) :
    List (Nat × Nat) → Nat → Option Int
  | [], _ => none
  | ij :: rest, count =>
    if pos.1 = ij.1 ∧ pos.2 = ij.2 then
      (if default_graph_layout num_rows num_cols ij.1 ij.2 = NodeType.EMPTY then some (-1)
       else some (count : Int))
    else if default_graph_layout num_rows num_cols ij.1 ij.2 ≠ NodeType.EMPTY then
      get_node_id_go num_rows num_cols pos rest (count + 1)
    else
      get_node_id_go num_rows num_cols pos rest count

/-- NetworkConfig.get_node_id; `none` models
`raise ValueError("Invalid node position")`. -/
def get_node_id (num_rows num_cols : Nat) (pos : Nat × Nat) : Option Int :=
  get_node_id_go num_rows num_cols pos (cells num_rows num_cols) 0

/-- NetworkConfig.start_pos: the first cell of the row-major scan holding
START (`none` models the AssertionError when no START cell exists). -/
def start_pos (num_rows num_cols : Nat) : Option (Nat × Nat) :=
  (cells num_rows num_cols).find?
    (fun ij => decide (default_graph_layout num_rows num_cols ij.1 ij.2 = NodeType.START))

/-- NetworkConfig.data_pos: the first cell of the row-major scan holding
DATA. -/
def data_pos (num_rows num_cols : Nat) : Option (Nat × Nat) :=
  (cells num_rows num_cols).find?
    (fun ij => decide (default_graph_layout num_rows num_cols ij.1 ij.2 = NodeType.DATA))

/-- The per-pair condition of NetworkConfig.__default_adjacency_matrix
deciding whether loop iteration (i, j) writes a 1 (`sr`, `sc`, `dr`, `dc`
are the start/data row/column; the `row_2 == start_row - 1` comparison is
taken over the integers, as in Python). -/
def adjacency_condition (num_cols sr sc dr dc i j : Nat) : Bool :=
  let row_1 := i / num_cols
  let col_1 := i % num_cols
  let row_2 := j / num_cols
  let col_2 := j % num_cols
  if row_1 = dr then
    decide (row_2 = dr + 1 ∧ col_1 = dc)
  else if row_1 = sr then
    decide ((row_2 : Int) = (sr : Int) - 1 ∧ col_1 = sc)
  else
    decide (row_2 = row_1 + 1 ∧ col_1 = col_2 ∧ row_1 ≠ sr ∧ row_2 ≠ sr)

/-- One assignment `adjacency_matrix[i][j] = 1` on a matrix represented as
a function. -/
def adjacency_write (M : Nat → Nat → Nat) (i j : Nat) : Nat → Nat → Nat :=
  fun a b => if a = i ∧ b = j then 1 else M a b

/-- The body of one iteration (i, j) of the double loop in
NetworkConfig.__default_adjacency_matrix: when the condition holds, both
`adjacency_matrix[i][j]` and `adjacency_matrix[j][i]` are set to 1. -/
def adjacency_step (num_cols sr sc dr dc : Nat) (M : Nat → Nat → Nat) (ij : Nat × Nat) :
    Nat → Nat → Nat :=
  if adjacency_condition num_cols sr sc dr dc ij.1 ij.2 then
    adjacency_write (adjacency_write M ij.1 ij.2) ij.2 ij.1
  else M

/-- NetworkConfig.__default_adjacency_matrix as a fold of the loop body over
all index pairs (i, j) with i, j < num_rows * num_cols, starting from the
zero matrix. -/
def default_adjacency_matrix (num_rows num_cols sr sc dr dc : Nat) : Nat → Nat → Nat :=
  (cells (num_rows * num_cols) (num_rows * num_cols)).foldl
    (adjacency_step num_cols sr sc dr dc) (fun _ _ => 0)

/-- The adjacency matrix owned by a constructed NetworkConfig: `none` when
the start or data cell is missing (in which case the Python constructor
raises while reading `data_row`/`start_row`). -/
def adjacency_matrix (num_rows num_cols : Nat) : Option (Nat → Nat → Nat) :=
  match data_pos num_rows num_cols, start_pos num_rows num_cols with
  | some dp, some sp =>
    some (default_adjacency_matrix num_rows num_cols sp.1 sp.2 dp.1 dp.2)
  | _, _ => none

/-- Python list indexing `l[i]`: a negative index counts from the end of
the list, `none` models the IndexError for an out-of-range index. -/
def pyGet {α : Type _} (l : List α) (i : Int) : Option α :=
  if i < 0 then
    (if (l.length : Int) + i < 0 then none else l[((l.length : Int) + i).toNat]?)
  else l[i.toNat]?

/-- GameConfig: the three constructor inputs that the derived sizes depend
on. -/
structure GameConfig where
  num_layers : Nat
  num_servers_per_layer : Nat
  num_attack_types : Nat

/-- GameConfig.num_rows = num_layers + 2. -/
def GameConfig.num_rows (g : GameConfig) : Nat := g.num_layers + 2

/-- GameConfig.num_cols = num_servers_per_layer. -/
def GameConfig.num_cols (g : GameConfig) : Nat := g.num_servers_per_layer

/-- GameConfig.num_nodes = num_layers * num_servers_per_layer + 2. -/
def GameConfig.num_nodes (g : GameConfig) : Nat :=
  g.num_layers * g.num_servers_per_layer + 2

/-- GameConfig.num_attack_actions = num_attack_types * num_nodes. -/
def GameConfig.num_attack_actions (g : GameConfig) : Nat :=
  g.num_attack_types * g.num_nodes

/-- GameConfig.num_defense_actions = (num_attack_types + 1) * num_nodes. -/
def GameConfig.num_defense_actions (g : GameConfig) : Nat :=
  (g.num_attack_types + 1) * g.num_nodes

/-- The GameConfig built from the default constructor arguments
(num_layers = 1, num_servers_per_layer = 2, num_attack_types = 10), whose
network is the default 3 x 2 grid with 4 nodes. -/
def default_game_config : GameConfig := ⟨1, 2, 10⟩

/-- idsgame_util.get_attack_defense_type: `action % num_attack_types`. -/
def get_attack_defense_type (g : GameConfig) (action : Nat) : Nat :=
  action % g.num_attack_types

/-- idsgame_util.interpret_action: server id is `action // num_attack_types`,
its position comes from get_node_pos (whose ValueError propagates as
`none`), the type is `action % num_attack_types`. -/
def interpret_action (g : GameConfig) (action : Nat) :
    Option (Nat × (Nat × Nat) × Nat) :=
  let server_id := action / g.num_attack_types
  match get_node_pos g.num_rows g.num_cols server_id with
  | none => none
  | some server_pos => some (server_id, server_pos, get_attack_defense_type g action)

/-- idsgame_util.get_action_id: `server_id * num_attack_types + type`. -/
def get_action_id (g : GameConfig) (server_id attack_defense_type : Nat) : Nat :=
  server_id * g.num_attack_types + attack_defense_type

/-- idsgame_util.is_defense_id_legal: interprets the defense id with
interpret_action and answers whether the indexed entry of node_list is
SERVER or DATA; `none` models the ValueError of get_node_pos or the
IndexError of the node_list lookup. -/
def is_defense_id_legal (g : GameConfig) (defense_id : Nat) : Option Bool :=
  match interpret_action g defense_id with
  | none => none
  | some (server_id, _, _) =>
    match pyGet (node_list g.num_rows g.num_cols) (server_id : Int) with
    | none => none
    | some t => some (decide (t = NodeType.SERVER ∨ t = NodeType.DATA))

/-- The anti-cycling test of is_attack_legal for a history of at least four
recorded node ids, in the source's order of conjuncts: the target id equals
past_moves[-2], differs from the middle node past_moves[-1], the middle
node equals past_moves[-3], the target id equals past_moves[-4], and the
target row exceeds the attacker row.  The default value of getD is never
read because every index is in range once the length is at least 4. -/
def cycle_pattern (target_node_id : Int) (past_moves : List Int)
    (target_row attacker_row : Nat) : Bool :=
  let middle_node := past_moves.getD (past_moves.length - 1) 0
  decide (target_node_id = past_moves.getD (past_moves.length - 2) 0) &&
  decide (target_node_id ≠ middle_node) &&
  decide (middle_node = past_moves.getD (past_moves.length - 3) 0) &&
  decide (target_node_id = past_moves.getD (past_moves.length - 4) 0) &&
  decide (attacker_row < target_row)

/-- idsgame_util.is_attack_legal: self-targets are rejected first; then the
target's node id is looked up (node_list indexing follows Python, so id -1
of an EMPTY target wraps to the last node) and START targets are rejected;
then, when a history of at least 4 moves is given, the anti-cycling test
may reject; otherwise the answer is the adjacency-matrix entry test. -/
def is_attack_legal (num_rows num_cols : Nat) (target_pos attacker_pos : Nat × Nat)
    (past_moves : Option (List Int)) : Option Bool :=
  if target_pos = attacker_pos then some false
  else
    match get_node_id num_rows num_cols target_pos with
    | none => none
    | some target_node_id =>
      match pyGet (node_list num_rows num_cols) target_node_id with
      | none => none
      | some t =>
        if t = NodeType.START then some false
        else
          if (match past_moves with
              | some pm => decide (4 ≤ pm.length) &&
                  cycle_pattern target_node_id pm target_pos.1 attacker_pos.1
              | none => false) then some false
          else
            match adjacency_matrix num_rows num_cols with
            | none => none
            | some M =>
              some (decide (M (attacker_pos.1 * num_cols + attacker_pos.2)
                              (target_pos.1 * num_cols + target_pos.2) = 1))

/-- Whether the anti-cycling clause of is_attack_legal fires for the given
history (ignoring the length guard): the cycle_pattern test applied to the
target's node id. -/
def cycle_rejects (num_rows num_cols : Nat) (target_pos attacker_pos : Nat × Nat)
    (pm : List Int) : Bool :=
  match get_node_id num_rows num_cols target_pos with
  | some target_node_id => cycle_pattern target_node_id pm target_pos.1 attacker_pos.1
  | none => false

/-! ### Opponent pool (PPO.add_model_to_pool, PPO.update_quality_score)

Pool entries in the quality-scores mode are `[policy, score]` pairs; the
policy is opaque, scores are real numbers. -/

/-- The opponent-pool configuration fields used by the pool operations. -/
structure OpponentPoolConfig where
  pool_maxsize : Nat
  initial_quality : ℝ
  quality_score_eta : ℝ

/-- Python `max(qualities)` on a list; the source only calls it on
non-empty lists (Python raises otherwise, the `[]` value is unreachable
there). -/
def pyListMax : List ℝ → ℝ
  | [] => 0
  | x :: xs => xs.foldl max x

/-- The append phase of PPO.add_model_to_pool in the quality-scores mode:
an empty pool receives the initial quality, otherwise the new entry gets
the maximum of the scores currently in the pool. -/
def append_with_score {α : Type _} (cfg : OpponentPoolConfig) (model_copy : α)
    (pool : List (α × ℝ)) : List (α × ℝ) :=
  if pool.length = 0 then pool ++ [(model_copy, cfg.initial_quality)]
  else pool ++ [(model_copy, pyListMax (pool.map Prod.snd))]

/-- PPO.add_model_to_pool (quality-scores mode, for either side's pool):
when the pool has reached pool_maxsize the entry at index 0 is popped
first; `none` models the IndexError of `pop(0)` on an empty list (only
reachable when pool_maxsize = 0). -/
def add_model_to_pool {α : Type _} (cfg : OpponentPoolConfig) (model_copy : α)
    (pool : List (α × ℝ)) : Option (List (α × ℝ)) :=
  if cfg.pool_maxsize ≤ pool.length then
    match pool with
    | [] => none
    | _ :: rest => some (append_with_score cfg model_copy rest)
  else some (append_with_score cfg model_copy pool)

/-- The pool after the eviction phase of add_model_to_pool: index 0 is
dropped exactly when the pool is at (or beyond) capacity. -/
def evict_if_full {α : Type _} (cfg : OpponentPoolConfig) (pool : List (α × ℝ)) :
    List (α × ℝ) :=
  if cfg.pool_maxsize ≤ pool.length then pool.tail else pool

/-- scipy.special.softmax: `exp(x_i) / sum_j exp(x_j)` (scipy's subtraction
of the maximum is an algebraically neutral numerical stabilisation). -/
noncomputable def get_softmax_distribution (qualities : List ℝ) : List ℝ :=
  qualities.map (fun q => Real.exp q / ((qualities.map Real.exp).sum))

/-- PPO.update_quality_score (for either side's pool): recomputes the
softmax distribution over the current scores and subtracts
`eta / (N * p)` from the selected entry's score, N being the pool size and
p the entry's softmax probability; `none` models the IndexError for an
out-of-range index. -/
noncomputable def update_quality_score {α : Type _} (eta : ℝ) (pool : List (α × ℝ))
    (opponent_idx : Nat) : Option (List (α × ℝ)) :=
  match pool[opponent_idx]? with
  | none => none
  | some entry =>
    let N := pool.length
    let dist := get_softmax_distribution (pool.map Prod.snd)
    let p := dist.getD opponent_idx 0
    some (pool.set opponent_idx (entry.1, entry.2 - eta / (N * p)))

/-! ### Rollout collection (PPO.collect_rollouts)

The loop of collect_rollouts is modelled at the granularity the buffer
bookkeeping needs: which local variables get bound each iteration
(forward passes produce action arrays and value/log-prob tensors, bot
opponents produce only an action array, the `[0]` defaults are plain
lists) and which buffer-add calls run.  Referencing an unbound local or
calling `.reshape` on a plain list raises; both are modelled as `error`.
Action spaces are Discrete, so the reshape branch always runs.  Buffer
contents are abstracted to their length (number of `add` calls since the
reset at the top of collect_rollouts). -/

/-- The boolean inputs that determine the control flow of one call of
PPO.collect_rollouts: the two `pg_agent_config` side flags, the
alternating-optimization and opponent-pool flags, the two train flags, and
whether `self.defender_opponent` is a PPOPolicy (the isinstance test that
gates both opponent forward passes). -/
structure RolloutFlags where
  attacker : Bool
  defender : Bool
  alternating_optimization : Bool
  opponent_pool : Bool
  train_attacker : Bool
  train_defender : Bool
  defender_opponent_is_policy : Bool

/-- Whether the loop body binds `attacker_values` (and the log-probs): by
the attacker's own forward pass, or by the attacker-opponent forward pass
inside the trainable-defender branch (gated on the isinstance test of
`defender_opponent`). -/
def attacker_values_bound (f : RolloutFlags) : Bool :=
  (f.attacker && f.train_attacker) ||
  (f.defender && f.train_defender && f.alternating_optimization && f.opponent_pool &&
    f.defender_opponent_is_policy)

/-- Whether the loop body binds `defender_values`. -/
def defender_values_bound (f : RolloutFlags) : Bool :=
  (f.defender && f.train_defender) ||
  (f.attacker && f.train_attacker && f.alternating_optimization && f.opponent_pool &&
    f.defender_opponent_is_policy)

/-- Whether `attacker_actions` is a numpy array rather than the `[0]`
default list (forward passes and bot actions both produce arrays). -/
def attacker_actions_is_array (f : RolloutFlags) : Bool :=
  (f.attacker && f.train_attacker) ||
  (f.defender && f.train_defender && f.alternating_optimization && f.opponent_pool)

/-- Whether `defender_actions` is a numpy array rather than the default
list. -/
def defender_actions_is_array (f : RolloutFlags) : Bool :=
  (f.defender && f.train_defender) ||
  (f.attacker && f.train_attacker && f.alternating_optimization && f.opponent_pool)

/-- Whether the loop body calls `attacker_rollout_buffer.add`: the attacker
side must be on, and when alternating optimization runs with an opponent
pool the attacker must currently be the trained side. -/
def adds_attacker (f : RolloutFlags) : Bool :=
  f.attacker && (!(f.alternating_optimization && f.opponent_pool) || f.train_attacker)

/-- Whether the loop body calls `defender_rollout_buffer.add`. -/
def adds_defender (f : RolloutFlags) : Bool :=
  f.defender && (!(f.alternating_optimization && f.opponent_pool) || f.train_defender)

/-- One iteration of the while loop of collect_rollouts, acting on the pair
of buffer lengths: first the two reshape calls (which raise AttributeError
on a plain list), then the two guarded buffer adds (which raise
UnboundLocalError when the values were never bound). -/
def rollout_step (f : RolloutFlags) (bufs : Nat × Nat) : Except String (Nat × Nat) :=
  if f.attacker && !attacker_actions_is_array f then
    Except.error "AttributeError: reshape on attacker_actions"
  else if f.defender && !defender_actions_is_array f then
    Except.error "AttributeError: reshape on defender_actions"
  else if adds_attacker f && !attacker_values_bound f then
    Except.error "UnboundLocalError: attacker_values"
  else if adds_defender f && !defender_values_bound f then
    Except.error "UnboundLocalError: defender_values"
  else
    Except.ok (bufs.1 + (if adds_attacker f then 1 else 0),
               bufs.2 + (if adds_defender f then 1 else 0))

/-- The while loop: n_rollout_steps iterations of rollout_step, stopping at
the first exception. -/
def rollout_loop (f : RolloutFlags) : Nat → Nat × Nat → Except String (Nat × Nat)
  | 0, bufs => Except.ok bufs
  | n + 1, bufs =>
    match rollout_step f bufs with
    | Except.ok bufs' => rollout_loop f n bufs'
    | Except.error e => Except.error e

/-- PPO.collect_rollouts, reduced to the buffer lengths it produces: the
buffers are reset, the loop runs n_rollout_steps iterations, and the final
compute_returns_and_advantage calls reference `attacker_values` /
`defender_values` and `dones`, which are unbound when the loop never ran
or the side's values were never assigned. -/
def collect_rollouts (f : RolloutFlags) (n_rollout_steps : Nat) :
    Except String (Nat × Nat) :=
  match rollout_loop f n_rollout_steps (0, 0) with
  | Except.error e => Except.error e
  | Except.ok bufs =>
    if f.attacker && (decide (n_rollout_steps = 0) || !attacker_values_bound f) then
      Except.error "UnboundLocalError: attacker_values in compute_returns_and_advantage"
    else if f.defender && (decide (n_rollout_steps = 0) || !defender_values_bound f) then
      Except.error "UnboundLocalError: defender_values in compute_returns_and_advantage"
    else Except.ok bufs

/-! ### Episode counters of the trainer (base_class init, collect_rollouts
episode bookkeeping, learn logging window) -/

/-- The four episode counters owned by the trainer. -/
structure TrainCounters where
  num_train_games : Nat
  num_train_hacks : Nat
  num_train_games_total : Nat
  num_train_hacks_total : Nat

/-- Counter values set in BaseRLModel.__init__. -/
def initial_counters : TrainCounters := ⟨0, 0, 0, 0⟩

/-- The episode-end bookkeeping of collect_rollouts: the games counters
always increment, the hack counters increment exactly when the episode
ended hacked. -/
def episode_end (hacked : Bool) (c : TrainCounters) : TrainCounters :=
  { num_train_games := c.num_train_games + 1,
    num_train_games_total := c.num_train_games_total + 1,
    num_train_hacks := if hacked then c.num_train_hacks + 1 else c.num_train_hacks,
    num_train_hacks_total :=
      if hacked then c.num_train_hacks_total + 1 else c.num_train_hacks_total }

/-- The reset at the end of the logging branch of PPO.learn: the window
counters return to 0 together, the totals are untouched. -/
def log_window_reset (c : TrainCounters) : TrainCounters :=
  { c with num_train_games := 0, num_train_hacks := 0 }

/-- The two kinds of counter mutation the trainer performs. -/
inductive CounterEvent where
  | episode (hacked : Bool)
  | logReset

/-- Apply one counter mutation. -/
def apply_counter_event (c : TrainCounters) : CounterEvent → TrainCounters
  | CounterEvent.episode hacked => episode_end hacked c
  | CounterEvent.logReset => log_window_reset c

/-- Any interleaving of episode ends and logging-window resets. -/
def run_counter_events (events : List CounterEvent) (c : TrainCounters) : TrainCounters :=
  events.foldl apply_counter_event c

/-- The windowed hack probability computed in the logging branch of
PPO.learn (0.0 when either games counter is 0). -/
def train_hack_probability (c : TrainCounters) : ℚ :=
  if 0 < c.num_train_games ∧ 0 < c.num_train_games_total then
    (c.num_train_hacks : ℚ) / (c.num_train_games : ℚ)
  else 0

/-- The cumulative hack probability computed in the logging branch of
PPO.learn. -/
def train_cumulative_hack_probability (c : TrainCounters) : ℚ :=
  if 0 < c.num_train_games ∧ 0 < c.num_train_games_total then
    (c.num_train_hacks_total : ℚ) / (c.num_train_games_total : ℚ)
  else 0

/-- The bookkeeping invariant: hacks never exceed games, windowed and
cumulative. -/
def counters_invariant (c : TrainCounters) : Prop :=
  c.num_train_hacks ≤ c.num_train_games ∧
  c.num_train_hacks_total ≤ c.num_train_games_total

instance (c : TrainCounters) : Decidable (counters_invariant c) := by
  unfold counters_invariant; infer_instance

/-! ## Theorems -/

/-- A coordinate pair lies in the row-major cell list exactly when both
components are in range. -/
theorem mem_cells {num_rows num_cols : Nat} (p : Nat × Nat) :
    p ∈ cells num_rows num_cols ↔ p.1 < num_rows ∧ p.2 < num_cols := by
  cases p with
  | mk i j =>
    simp [cells, List.mem_flatMap, List.mem_range, Prod.ext_iff]

/-- Python indexing with a Nat index is plain list indexing. -/
theorem pyGet_natCast {α : Type _} (l : List α) (n : Nat) : pyGet l (n : Int) = l[n]? := by
  unfold pyGet
  rw [if_neg (by omega), Int.toNat_natCast]

/-- The get_node_id scan, on any cell list containing the queried non-EMPTY
position, returns `count + k` where k indexes the position's node type in
the node list built from the same cells. -/
theorem get_node_id_go_spec (num_rows num_cols : Nat) (pos : Nat × Nat)
    (hne : default_graph_layout num_rows num_cols pos.1 pos.2 ≠ NodeType.EMPTY) :
    ∀ (l : List (Nat × Nat)) (count : Nat), pos ∈ l →
      ∃ k : Nat, get_node_id_go num_rows num_cols pos l count = some ((count + k : Nat) : Int) ∧
        ((l.filter (fun ij =>
              decide (default_graph_layout num_rows num_cols ij.1 ij.2 ≠ NodeType.EMPTY))).map
            (fun ij => default_graph_layout num_rows num_cols ij.1 ij.2))[k]? =
          some (default_graph_layout num_rows num_cols pos.1 pos.2) := by
  intro l
  induction l with
  | nil => intro count h; exact absurd h (List.not_mem_nil pos)
  | cons ij rest ih =>
    intro count hmem
    by_cases hij : pos.1 = ij.1 ∧ pos.2 = ij.2
    · have hpos : pos = ij := Prod.ext hij.1 hij.2
      subst hpos
      refine ⟨0, ?_, ?_⟩
      · simp [get_node_id_go, hne]
      · simp [List.filter_cons, hne]
    · have hmem' : pos ∈ rest := by
        rcases List.mem_cons.mp hmem with h | h
        · exact absurd ⟨congrArg Prod.fst h, congrArg Prod.snd h⟩ hij
        · exact h
      by_cases hE : default_graph_layout num_rows num_cols ij.1 ij.2 = NodeType.EMPTY
      · obtain ⟨k, hk1, hk2⟩ := ih count hmem'
        refine ⟨k, ?_, ?_⟩
        · simpa [get_node_id_go, hij, hE] using hk1
        · simpa [List.filter_cons, hE] using hk2
      · obtain ⟨k, hk1, hk2⟩ := ih (count + 1) hmem'
        refine ⟨k + 1, ?_, ?_⟩
        · rw [show count + (k + 1) = count + 1 + k by omega]
          simpa [get_node_id_go, hij, hE] using hk1
        · simpa [List.filter_cons, hE] using hk2

/-- get_node_id on an in-grid non-EMPTY position returns the index of that
position's node type in node_list. -/
theorem get_node_id_spec (num_rows num_cols : Nat) (pos : Nat × Nat)
    (h1 : pos.1 < num_rows) (h2 : pos.2 < num_cols)
    (hne : default_graph_layout num_rows num_cols pos.1 pos.2 ≠ NodeType.EMPTY) :
    ∃ k : Nat, get_node_id num_rows num_cols pos = some (k : Int) ∧
      (node_list num_rows num_cols)[k]? =
        some (default_graph_layout num_rows num_cols pos.1 pos.2) := by
  obtain ⟨k, hk1, hk2⟩ :=
    get_node_id_go_spec num_rows num_cols pos hne (cells num_rows num_cols) 0
      ((mem_cells pos).mpr ⟨h1, h2⟩)
  exact ⟨k, by simpa [get_node_id] using hk1, hk2⟩

/-- The get_node_pos scan succeeds whenever the queried id is below the
count of non-EMPTY cells remaining (plus the running count). -/
theorem get_node_pos_go_isSome (num_rows num_cols node_id : Nat) :
    ∀ (l : List (Nat × Nat)) (count : Nat), count ≤ node_id →
      node_id < count + (l.filter (fun ij =>
          decide (default_graph_layout num_rows num_cols ij.1 ij.2 ≠ NodeType.EMPTY))).length →
      ∃ p, get_node_pos_go num_rows num_cols node_id l count = some p := by
  intro l
  induction l with
  | nil =>
    intro count hle hlt
    simp only [List.filter_nil, List.length_nil, Nat.add_zero] at hlt
    omega
  | cons ij rest ih =>
    intro count hle hlt
    by_cases he : node_id = count
    · exact ⟨ij, by simp [get_node_pos_go, he]⟩
    · by_cases hE : default_graph_layout num_rows num_cols ij.1 ij.2 = NodeType.EMPTY
      · have hlt' : node_id < count + (rest.filter (fun ij =>
            decide (default_graph_layout num_rows num_cols ij.1 ij.2 ≠ NodeType.EMPTY))).length := by
          simpa [List.filter_cons, hE] using hlt
        obtain ⟨p, hp⟩ := ih count hle hlt'
        exact ⟨p, by simpa [get_node_pos_go, he, hE] using hp⟩
      · have hlt' : node_id < count + 1 + (rest.filter (fun ij =>
            decide (default_graph_layout num_rows num_cols ij.1 ij.2 ≠ NodeType.EMPTY))).length := by
          rw [List.filter_cons, if_pos (by simpa using hE)] at hlt
          simp only [List.length_cons] at hlt
          omega
        obtain ⟨p, hp⟩ := ih (count + 1) (by omega) hlt'
        exact ⟨p, by simpa [get_node_pos_go, he, hE] using hp⟩

/-- get_node_pos succeeds on every id below the node count. -/
theorem get_node_pos_isSome (num_rows num_cols node_id : Nat)
    (h : node_id < (node_list num_rows num_cols).length) :
    ∃ p, get_node_pos num_rows num_cols node_id = some p := by
  have h' : node_id < 0 + ((cells num_rows num_cols).filter (fun ij =>
      decide (default_graph_layout num_rows num_cols ij.1 ij.2 ≠ NodeType.EMPTY))).length := by
    simpa [node_list] using h
  simpa [get_node_pos] using
    get_node_pos_go_isSome num_rows num_cols node_id (cells num_rows num_cols) 0
      (Nat.zero_le _) h'

/-- The default layout of a grid with at least two rows and one column has
a START cell (at the bottom row, middle column), so start_pos succeeds. -/
theorem start_pos_isSome (num_rows num_cols : Nat)
    (hrows : 2 ≤ num_rows) (hcols : 1 ≤ num_cols) :
    ∃ sp, start_pos num_rows num_cols = some sp := by
  have hmem : ((num_rows - 1, num_cols / 2) : Nat × Nat) ∈ cells num_rows num_cols :=
    (mem_cells _).mpr ⟨by omega, Nat.div_lt_self (by omega) (by omega)⟩
  have hsome : (start_pos num_rows num_cols).isSome := by
    rw [start_pos, List.find?_isSome]
    exact ⟨_, hmem, by simp [default_graph_layout]⟩
  exact Option.isSome_iff_exists.mp hsome

/-- The default layout of a grid with at least two rows and one column has
a DATA cell (at the top row, middle column), so data_pos succeeds. -/
theorem data_pos_isSome (num_rows num_cols : Nat)
    (hrows : 2 ≤ num_rows) (hcols : 1 ≤ num_cols) :
    ∃ dp, data_pos num_rows num_cols = some dp := by
  have hmem : ((0, num_cols / 2) : Nat × Nat) ∈ cells num_rows num_cols :=
    (mem_cells _).mpr ⟨by omega, Nat.div_lt_self (by omega) (by omega)⟩
  have hrow : ¬((0 : Nat) = num_rows - 1) := by omega
  have hsome : (data_pos num_rows num_cols).isSome := by
    rw [data_pos, List.find?_isSome]
    exact ⟨_, hmem, by simp [default_graph_layout, hrow]⟩
  exact Option.isSome_iff_exists.mp hsome

/-- A NetworkConfig with at least two rows and one column builds its
adjacency matrix (the start/data lookups cannot raise). -/
theorem adjacency_matrix_isSome (num_rows num_cols : Nat)
    (hrows : 2 ≤ num_rows) (hcols : 1 ≤ num_cols) :
    ∃ M, adjacency_matrix num_rows num_cols = some M := by
  obtain ⟨sp, hsp⟩ := start_pos_isSome num_rows num_cols hrows hcols
  obtain ⟨dp, hdp⟩ := data_pos_isSome num_rows num_cols hrows hcols
  exact ⟨_, by rw [adjacency_matrix, hsp, hdp]⟩

/-- One loop iteration of the adjacency build keeps the matrix symmetric:
the two mirrored entries are written together. -/
theorem adjacency_write_pair_symm (M : Nat → Nat → Nat) (i j : Nat)
    (h : ∀ a b, M a b = M b a) (a b : Nat) :
    adjacency_write (adjacency_write M i j) j i a b =
      adjacency_write (adjacency_write M i j) j i b a := by
  simp only [adjacency_write]
  split_ifs <;> first | rfl | exact h a b | tauto

/-- The loop body of the adjacency build preserves symmetry. -/
theorem adjacency_step_symm (num_cols sr sc dr dc : Nat) (M : Nat → Nat → Nat)
    (ij : Nat × Nat) (h : ∀ a b, M a b = M b a) (a b : Nat) :
    adjacency_step num_cols sr sc dr dc M ij a b =
      adjacency_step num_cols sr sc dr dc M ij b a := by
  unfold adjacency_step
  split_ifs with hc
  · exact adjacency_write_pair_symm M ij.1 ij.2 h a b
  · exact h a b

/-- A fold preserves any invariant its step preserves. -/
theorem foldl_preserves {α β : Type _} (P : α → Prop) (f : α → β → α)
    (hf : ∀ a b, P a → P (f a b)) :
    ∀ (l : List β) (a : α), P a → P (l.foldl f a) := by
  intro l
  induction l with
  | nil => intro a h; simpa using h
  | cons x xs ih => intro a h; rw [List.foldl_cons]; exact ih (f a x) (hf a x h)

/-- C9: the adjacency matrix built by NetworkConfig is symmetric (for all
index pairs, in particular those below num_rows * num_cols): every loop
iteration writes the two mirrored entries together, so the symmetry of the
initial zero matrix is preserved through the whole build. -/
theorem adjacency_matrix_symmetric (num_rows num_cols : Nat) (M : Nat → Nat → Nat)
    (hM : adjacency_matrix num_rows num_cols = some M) (i j : Nat) :
    M i j = M j i := by
  rw [adjacency_matrix] at hM
  cases hdp : data_pos num_rows num_cols with
  | none => rw [hdp] at hM; cases hM
  | some dp =>
    cases hsp : start_pos num_rows num_cols with
    | none => rw [hdp, hsp] at hM; cases hM
    | some sp =>
      rw [hdp, hsp] at hM
      have hEq : default_adjacency_matrix num_rows num_cols sp.1 sp.2 dp.1 dp.2 = M :=
        Option.some.inj hM
      subst hEq
      have hsym : ∀ a b, default_adjacency_matrix num_rows num_cols sp.1 sp.2 dp.1 dp.2 a b =
          default_adjacency_matrix num_rows num_cols sp.1 sp.2 dp.1 dp.2 b a := by
        simp only [default_adjacency_matrix]
        refine foldl_preserves (fun N => ∀ a b, N a b = N b a)
          (adjacency_step num_cols sp.1 sp.2 dp.1 dp.2) ?_ _ _ ?_
        · intro N x hN a b
          exact adjacency_step_symm num_cols sp.1 sp.2 dp.1 dp.2 N x hN a b
        · intro a b; rfl
      exact hsym i j

/-- Witness for C9 on the default 3 x 2 grid: the built matrix and the
symmetry of the DATA-SERVER edge entries. -/
theorem adjacency_matrix_symmetric_witness :
    adjacency_matrix 3 2 = some (default_adjacency_matrix 3 2 2 1 0 1) ∧
    default_adjacency_matrix 3 2 2 1 0 1 1 3 = default_adjacency_matrix 3 2 2 1 0 1 3 1 := by
  constructor
  · rfl
  · exact adjacency_matrix_symmetric 3 2 (default_adjacency_matrix 3 2 2 1 0 1) rfl 1 3

/-- C8: an attack is judged illegal whenever the target is the attacker's
own position, and whenever the targeted cell holds the START node —
independently of adjacency and of the recorded move history. -/
theorem attack_on_self_or_start_illegal (num_rows num_cols : Nat)
    (target_pos attacker_pos : Nat × Nat) (past_moves : Option (List Int))
    (h : target_pos = attacker_pos ∨
      (target_pos.1 < num_rows ∧ target_pos.2 < num_cols ∧
        default_graph_layout num_rows num_cols target_pos.1 target_pos.2 = NodeType.START)) :
    is_attack_legal num_rows num_cols target_pos attacker_pos past_moves = some false := by
  rcases h with h | ⟨h1, h2, hstart⟩
  · simp [is_attack_legal, h]
  · by_cases heq : target_pos = attacker_pos
    · simp [is_attack_legal, heq]
    · obtain ⟨k, hk, hget⟩ := get_node_id_spec num_rows num_cols target_pos h1 h2
        (by rw [hstart]; decide)
      rw [hstart] at hget
      simp [is_attack_legal, heq, hk, pyGet_natCast, hget]

/-- Witness for C8: attacking the START cell (2,1) of the default 3 x 2
grid from the adjacent server, with a history present, is illegal. -/
theorem attack_on_self_or_start_illegal_witness :
    ((2, 1) = ((1, 1) : Nat × Nat) ∨
      ((2 : Nat) < 3 ∧ (1 : Nat) < 2 ∧ default_graph_layout 3 2 2 1 = NodeType.START)) ∧
    is_attack_legal 3 2 (2, 1) (1, 1) (some [0, 1, 0, 1]) = some false :=
  ⟨Or.inr ⟨by decide, by decide, by decide⟩,
    attack_on_self_or_start_illegal 3 2 (2, 1) (1, 1) (some [0, 1, 0, 1])
      (Or.inr ⟨by decide, by decide, by decide⟩)⟩

/-- C3: the anti-cycling clause engages only once at least 4 moves of
history exist — with fewer (or no) recorded moves the verdict coincides
with the history-free one, decided by the self-target, START and adjacency
rules alone — and once engaged it rejects exactly the moves the
history-free rules allow but whose last four recorded positions show the
period-2 pattern (target = past_moves[-2] = past_moves[-4], middle =
past_moves[-1] = past_moves[-3], target different from middle) with the
target row strictly beyond the attacker row. -/
theorem anti_cycling_engagement (num_rows num_cols : Nat)
    (hrows : 2 ≤ num_rows) (hcols : 1 ≤ num_cols)
    (target_pos attacker_pos : Nat × Nat) :
    (∀ pm : List Int, pm.length < 4 →
      is_attack_legal num_rows num_cols target_pos attacker_pos (some pm) =
        is_attack_legal num_rows num_cols target_pos attacker_pos none) ∧
    (∀ pm : List Int, 4 ≤ pm.length →
      is_attack_legal num_rows num_cols target_pos attacker_pos (some pm) =
        (is_attack_legal num_rows num_cols target_pos attacker_pos none).map
          (fun b => b && !(cycle_rejects num_rows num_cols target_pos attacker_pos pm))) := by
  constructor
  · intro pm hlen
    have hdec : decide (4 ≤ pm.length) = false := by simp; omega
    simp [is_attack_legal, hdec]
  · intro pm hlen
    have hdec : decide (4 ≤ pm.length) = true := by simpa using hlen
    by_cases heq : target_pos = attacker_pos
    · simp [is_attack_legal, heq]
    · simp only [is_attack_legal, if_neg heq]
      cases hid : get_node_id num_rows num_cols target_pos with
      | none => simp [cycle_rejects, hid]
      | some tid =>
        cases hpg : pyGet (node_list num_rows num_cols) tid with
        | none => simp [hpg]
        | some t =>
          dsimp only
          rw [hpg]
          by_cases ht : t = NodeType.START
          · simp [ht]
          · obtain ⟨M, hM⟩ := adjacency_matrix_isSome num_rows num_cols hrows hcols
            rw [hM]
            by_cases hpat : cycle_pattern tid pm target_pos.1 attacker_pos.1
            · simp [cycle_rejects, hid, hdec, hpat, ht]
            · simp [cycle_rejects, hid, hdec, hpat, ht]

/-- Witness for C3 on the default 3 x 2 grid with a length-4 history. -/
theorem anti_cycling_engagement_witness :
    2 ≤ 3 ∧ 1 ≤ 2 ∧ 4 ≤ ([0, 1, 0, 1] : List Int).length ∧
    is_attack_legal 3 2 (0, 1) (1, 1) (some [0, 1, 0, 1]) =
      (is_attack_legal 3 2 (0, 1) (1, 1) none).map
        (fun b => b && !(cycle_rejects 3 2 (0, 1) (1, 1) [0, 1, 0, 1])) :=
  ⟨by decide, by decide, by decide,
    (anti_cycling_engagement 3 2 (by decide) (by decide) (0, 1) (1, 1)).2 [0, 1, 0, 1]
      (by decide)⟩

/-- C7: interpreting an encoded action recovers the node id, the node's
scan position and the type: `get_action_id(n, t) = n * num_attack_types +
t` divides back to server id n and reduces back to type t whenever t is a
valid type, and get_node_pos succeeds on every valid node id. -/
theorem interpret_action_get_action_id_roundtrip (g : GameConfig) (n t : Nat)
    (ht : t < g.num_attack_types)
    (hn : n < (node_list g.num_rows g.num_cols).length) :
    ∃ p, get_node_pos g.num_rows g.num_cols n = some p ∧
      interpret_action g (get_action_id g n t) = some (n, p, t) := by
  obtain ⟨p, hp⟩ := get_node_pos_isSome g.num_rows g.num_cols n hn
  have hT : 0 < g.num_attack_types := by omega
  have hdiv : (n * g.num_attack_types + t) / g.num_attack_types = n := by
    rw [Nat.mul_comm, Nat.mul_add_div hT, Nat.div_eq_of_lt ht, Nat.add_zero]
  have hmod : (n * g.num_attack_types + t) % g.num_attack_types = t := by
    rw [Nat.add_comm, Nat.add_mul_mod_self_right, Nat.mod_eq_of_lt ht]
  refine ⟨p, hp, ?_⟩
  simp only [interpret_action, get_action_id, get_attack_defense_type, hdiv, hmod, hp]

/-- Witness for C7, covering the spec scenario: num_attack_types = 10 on
the default 4-node topology, get_action_id(2,3) = 23, and action 23
interprets to node 2 with type 3. -/
theorem interpret_action_get_action_id_roundtrip_witness :
    3 < default_game_config.num_attack_types ∧
    2 < (node_list default_game_config.num_rows default_game_config.num_cols).length ∧
    get_action_id default_game_config 2 3 = 23 ∧
    (∃ p, get_node_pos default_game_config.num_rows default_game_config.num_cols 2 = some p ∧
      interpret_action default_game_config (get_action_id default_game_config 2 3) =
        some (2, p, 3)) :=
  ⟨by decide, by decide, by decide,
    interpret_action_get_action_id_roundtrip default_game_config 2 3 (by decide) (by decide)⟩

/-- C2 counterexample: in the default configuration (num_attack_types =
10, 4 nodes) the defense action space has (10+1)*4 = 44 actions, but
is_defense_id_legal raises on defense id 40 (its server id 40 // 10 = 4 is
out of node range, so get_node_pos raises ValueError) instead of returning
a Boolean: the function is not total on the defense action space. -/
theorem defense_id_in_space_raises :
    40 < default_game_config.num_defense_actions ∧
    is_defense_id_legal default_game_config 40 = none := by
  decide

/-- C2 amended: is_defense_id_legal decides SERVER-or-DATA for exactly the
defense ids whose decoded server id `d // num_attack_types` is a valid
node id, and raises on every other id (several of which lie inside the
defense action space, since it has (num_attack_types + 1) * num_nodes
members). -/
theorem is_defense_id_legal_domain (g : GameConfig) (d : Nat) :
    (d / g.num_attack_types < (node_list g.num_rows g.num_cols).length →
      ∃ ty, (node_list g.num_rows g.num_cols)[d / g.num_attack_types]? = some ty ∧
        is_defense_id_legal g d = some (decide (ty = NodeType.SERVER ∨ ty = NodeType.DATA))) ∧
    ((node_list g.num_rows g.num_cols).length ≤ d / g.num_attack_types →
      is_defense_id_legal g d = none) := by
  constructor
  · intro hlt
    obtain ⟨p, hp⟩ := get_node_pos_isSome g.num_rows g.num_cols (d / g.num_attack_types) hlt
    refine ⟨_, List.getElem?_eq_getElem hlt, ?_⟩
    simp only [is_defense_id_legal, interpret_action, hp]
    rw [pyGet_natCast, List.getElem?_eq_getElem hlt]
  · intro hge
    simp only [is_defense_id_legal, interpret_action]
    cases hp : get_node_pos g.num_rows g.num_cols (d / g.num_attack_types) with
    | none => rfl
    | some p =>
      dsimp only
      rw [pyGet_natCast, List.getElem?_eq_none hge]

/-- Witness for the amended C2: defense id 5 decodes to node 0 (DATA in
the default grid), and the call answers affirmatively. -/
theorem is_defense_id_legal_domain_witness :
    5 / default_game_config.num_attack_types <
      (node_list default_game_config.num_rows default_game_config.num_cols).length ∧
    (∃ ty, (node_list default_game_config.num_rows
          default_game_config.num_cols)[5 / default_game_config.num_attack_types]? = some ty ∧
      is_defense_id_legal default_game_config 5 =
        some (decide (ty = NodeType.SERVER ∨ ty = NodeType.DATA))) :=
  ⟨by decide, (is_defense_id_legal_domain default_game_config 5).1 (by decide)⟩

/-- The append phase of add_model_to_pool, written as one append whose
score is selected by the emptiness test. -/
theorem append_with_score_eq {α : Type _} (cfg : OpponentPoolConfig) (m : α)
    (p : List (α × ℝ)) :
    append_with_score cfg m p =
      p ++ [(m, if p.length = 0 then cfg.initial_quality
                else pyListMax (p.map Prod.snd))] := by
  unfold append_with_score
  split_ifs with h <;> rfl

/-- C5: add_model_to_pool never leaves the pool above pool_maxsize; at
capacity the entry at index 0 is dropped before appending (below capacity
nothing is dropped); the appended entry's score is the initial quality
when the pool being appended to is empty and otherwise the maximum of the
scores currently in it. -/
theorem add_model_to_pool_spec {α : Type _} (cfg : OpponentPoolConfig) (m : α)
    (pool : List (α × ℝ)) (hlen : pool.length ≤ cfg.pool_maxsize)
    (hpos : 1 ≤ cfg.pool_maxsize) :
    ∃ s : ℝ, add_model_to_pool cfg m pool = some (evict_if_full cfg pool ++ [(m, s)]) ∧
      (evict_if_full cfg pool ++ [(m, s)]).length ≤ cfg.pool_maxsize ∧
      (pool.length = cfg.pool_maxsize → evict_if_full cfg pool = pool.tail) ∧
      (pool.length < cfg.pool_maxsize → evict_if_full cfg pool = pool) ∧
      s = (if (evict_if_full cfg pool).length = 0 then cfg.initial_quality
           else pyListMax ((evict_if_full cfg pool).map Prod.snd)) := by
  refine ⟨_, ?_, ?_, ?_, ?_, rfl⟩
  · by_cases hfull : cfg.pool_maxsize ≤ pool.length
    · cases pool with
      | nil => simp only [List.length_nil] at hfull; omega
      | cons hd rest =>
        have hev : evict_if_full cfg (hd :: rest) = rest := by
          rw [evict_if_full, if_pos hfull, List.tail_cons]
        rw [hev]
        simp only [add_model_to_pool, if_pos hfull, append_with_score_eq]
    · have hev : evict_if_full cfg pool = pool := by
        rw [evict_if_full, if_neg hfull]
      rw [hev]
      simp only [add_model_to_pool, if_neg hfull, append_with_score_eq]
  · by_cases hfull : cfg.pool_maxsize ≤ pool.length
    · cases pool with
      | nil => simp only [List.length_nil] at hfull; omega
      | cons hd rest =>
        have hev : evict_if_full cfg (hd :: rest) = rest := by
          rw [evict_if_full, if_pos hfull, List.tail_cons]
        rw [hev]
        simp only [List.length_append, List.length_cons, List.length_nil] at hlen ⊢
        omega
    · have hev : evict_if_full cfg pool = pool := by
        rw [evict_if_full, if_neg hfull]
      rw [hev]
      simp only [List.length_append, List.length_cons, List.length_nil]
      omega
  · intro hcap
    rw [evict_if_full, if_pos (le_of_eq hcap.symm)]
  · intro hlt
    rw [evict_if_full, if_neg (by omega)]

/-- Witness for C5, covering the spec scenario: a below-capacity pool with
a single entry of score 1 receives a second entry whose score is the
current maximum, 1, and stays within capacity 2. -/
theorem add_model_to_pool_spec_witness :
    ([((), (1 : ℝ))] : List (Unit × ℝ)).length ≤
      (⟨2, 1, 1⟩ : OpponentPoolConfig).pool_maxsize ∧
    1 ≤ (⟨2, 1, 1⟩ : OpponentPoolConfig).pool_maxsize ∧
    (∃ s : ℝ,
      add_model_to_pool (⟨2, 1, 1⟩ : OpponentPoolConfig) () [((), (1 : ℝ))] =
        some (evict_if_full (⟨2, 1, 1⟩ : OpponentPoolConfig) [((), (1 : ℝ))] ++ [((), s)]) ∧
      (evict_if_full (⟨2, 1, 1⟩ : OpponentPoolConfig) [((), (1 : ℝ))] ++ [((), s)]).length ≤
        (⟨2, 1, 1⟩ : OpponentPoolConfig).pool_maxsize ∧
      (([((), (1 : ℝ))] : List (Unit × ℝ)).length = (⟨2, 1, 1⟩ : OpponentPoolConfig).pool_maxsize →
        evict_if_full (⟨2, 1, 1⟩ : OpponentPoolConfig) [((), (1 : ℝ))] =
          ([((), (1 : ℝ))] : List (Unit × ℝ)).tail) ∧
      (([((), (1 : ℝ))] : List (Unit × ℝ)).length < (⟨2, 1, 1⟩ : OpponentPoolConfig).pool_maxsize →
        evict_if_full (⟨2, 1, 1⟩ : OpponentPoolConfig) [((), (1 : ℝ))] = [((), (1 : ℝ))]) ∧
      s = (if (evict_if_full (⟨2, 1, 1⟩ : OpponentPoolConfig) [((), (1 : ℝ))]).length = 0
           then (⟨2, 1, 1⟩ : OpponentPoolConfig).initial_quality
           else pyListMax
             ((evict_if_full (⟨2, 1, 1⟩ : OpponentPoolConfig) [((), (1 : ℝ))]).map Prod.snd))) :=
  ⟨by decide, by decide,
    add_model_to_pool_spec (⟨2, 1, 1⟩ : OpponentPoolConfig) () [((), (1 : ℝ))]
      (by decide) (by decide)⟩

/-- Every softmax weight read at a valid index is strictly positive. -/
theorem get_softmax_distribution_pos (qs : List ℝ) (i : Nat) (hi : i < qs.length) :
    0 < (get_softmax_distribution qs).getD i 0 := by
  have hlen : i < (get_softmax_distribution qs).length := by
    simpa [get_softmax_distribution] using hi
  have hsum : 0 < ((qs.map Real.exp).sum) := by
    apply List.sum_pos
    · intro x hx
      obtain ⟨q, _, rfl⟩ := List.mem_map.mp hx
      exact Real.exp_pos q
    · have : qs ≠ [] := List.ne_nil_of_length_pos (by omega)
      simpa using this
  rw [List.getD_eq_getElem _ _ hlen]
  unfold get_softmax_distribution
  rw [List.getElem_map]
  exact div_pos (Real.exp_pos _) hsum

/-- C6: update_quality_score rewrites exactly the selected entry, replacing
its score s by s - eta / (N * p) with N the pool size and p the entry's
softmax probability, leaves every other entry untouched, and strictly
decreases the selected score whenever eta is positive. -/
theorem update_quality_score_spec {α : Type _} (eta : ℝ) (pool : List (α × ℝ))
    (i : Nat) (hi : i < pool.length) (heta : 0 < eta) :
    ∃ entry pool', pool[i]? = some entry ∧
      update_quality_score eta pool i = some pool' ∧
      pool'.length = pool.length ∧
      (∀ j, j ≠ i → pool'[j]? = pool[j]?) ∧
      pool'[i]? = some (entry.1, entry.2 - eta / ((pool.length : ℝ) *
        (get_softmax_distribution (pool.map Prod.snd)).getD i 0)) ∧
      entry.2 - eta / ((pool.length : ℝ) *
        (get_softmax_distribution (pool.map Prod.snd)).getD i 0) < entry.2 := by
  have he : pool[i]? = some pool[i] := List.getElem?_eq_getElem hi
  have hp : 0 < (get_softmax_distribution (pool.map Prod.snd)).getD i 0 :=
    get_softmax_distribution_pos (pool.map Prod.snd) i (by simpa using hi)
  have hN : (0 : ℝ) < (pool.length : ℝ) := by
    have : 0 < pool.length := by omega
    exact_mod_cast this
  have hdelta : 0 < eta / ((pool.length : ℝ) *
      (get_softmax_distribution (pool.map Prod.snd)).getD i 0) :=
    div_pos heta (mul_pos hN hp)
  refine ⟨pool[i],
    pool.set i (pool[i].1, pool[i].2 - eta / ((pool.length : ℝ) *
      (get_softmax_distribution (pool.map Prod.snd)).getD i 0)),
    he, ?_, ?_, ?_, ?_, sub_lt_self _ hdelta⟩
  · simp only [update_quality_score, he]
  · exact List.length_set pool i _
  · intro j hj
    exact List.getElem?_set_ne (fun h => hj h.symm)
  · exact List.getElem?_set_eq_of_lt _ hi

/-- Witness for C6 on a two-entry pool with scores 0 and learning rate 1. -/
theorem update_quality_score_spec_witness :
    (0 : Nat) < ([((), (0 : ℝ)), ((), 0)] : List (Unit × ℝ)).length ∧ (0 : ℝ) < 1 ∧
    (∃ entry pool', ([((), (0 : ℝ)), ((), 0)] : List (Unit × ℝ))[0]? = some entry ∧
      update_quality_score 1 ([((), (0 : ℝ)), ((), 0)] : List (Unit × ℝ)) 0 = some pool' ∧
      pool'.length = ([((), (0 : ℝ)), ((), 0)] : List (Unit × ℝ)).length ∧
      (∀ j, j ≠ 0 → pool'[j]? = ([((), (0 : ℝ)), ((), 0)] : List (Unit × ℝ))[j]?) ∧
      pool'[0]? = some (entry.1, entry.2 -
        1 / ((([((), (0 : ℝ)), ((), 0)] : List (Unit × ℝ)).length : ℝ) *
          (get_softmax_distribution
            (([((), (0 : ℝ)), ((), 0)] : List (Unit × ℝ)).map Prod.snd)).getD 0 0)) ∧
      entry.2 - 1 / ((([((), (0 : ℝ)), ((), 0)] : List (Unit × ℝ)).length : ℝ) *
          (get_softmax_distribution
            (([((), (0 : ℝ)), ((), 0)] : List (Unit × ℝ)).map Prod.snd)).getD 0 0) < entry.2) :=
  ⟨by decide, one_pos,
    update_quality_score_spec 1 ([((), (0 : ℝ)), ((), 0)] : List (Unit × ℝ)) 0
      (by decide) one_pos⟩

/-- C4 counterexample: with both sides enabled, alternating optimization
on but NO opponent pool (the only way a train flag is False without a
pool), and the attacker not trainable, collect_rollouts raises — the
attacker's default `[0]` action list reaches the reshape call, and had it
not, the unconditional buffer add would reference the never-assigned
attacker values — instead of silently adding zero attacker transitions
while the defender's buffer fills to n_rollout_steps. -/
theorem collect_rollouts_no_pool_raises :
    collect_rollouts ⟨true, true, true, false, false, true, true⟩ 2 =
      Except.error "AttributeError: reshape on attacker_actions" ∧
    collect_rollouts ⟨true, true, true, false, false, true, true⟩ 2 ≠
      Except.ok (0, 2) := by
  constructor
  · rfl
  · intro h
    rw [show collect_rollouts ⟨true, true, true, false, false, true, true⟩ 2 =
        Except.error "AttributeError: reshape on attacker_actions" from rfl] at h
    cases h

/-- When no step raises, the collection loop adds a constant number of
transitions to each buffer per iteration. -/
theorem rollout_loop_counts (f : RolloutFlags)
    (ha : (f.attacker && !attacker_actions_is_array f) = false)
    (hd : (f.defender && !defender_actions_is_array f) = false)
    (hav : (adds_attacker f && !attacker_values_bound f) = false)
    (hdv : (adds_defender f && !defender_values_bound f) = false) :
    ∀ (n x y : Nat), rollout_loop f n (x, y) =
      Except.ok (x + n * (if adds_attacker f then 1 else 0),
                 y + n * (if adds_defender f then 1 else 0)) := by
  intro n
  induction n with
  | zero => intro x y; simp [rollout_loop]
  | succ n ih =>
    intro x y
    have hstep : rollout_step f (x, y) =
        Except.ok (x + (if adds_attacker f then 1 else 0),
                   y + (if adds_defender f then 1 else 0)) := by
      simp only [rollout_step, ha, hd, hav, hdv]
      rfl
    rw [rollout_loop, hstep]
    dsimp only
    rw [ih]
    exact congrArg Except.ok (Prod.ext (by ring) (by ring))

/-- C4 amended: during one call of collect_rollouts in which alternating
optimization runs WITH an opponent pool whose sampled opponent is a
policy, and exactly one side is trainable, the non-trainable side's
buffer receives zero transitions while the trainable side's buffer
receives exactly n_rollout_steps transitions; without a pool the
collection does not silently skip the non-trainable side but raises. -/
theorem collect_rollouts_pool_counts (f : RolloutFlags) (n : Nat)
    (hatt : f.attacker = true) (hdef : f.defender = true)
    (halt : f.alternating_optimization = true) (hpool : f.opponent_pool = true)
    (hop : f.defender_opponent_is_policy = true)
    (hflip : f.train_attacker = !f.train_defender)
    (hn : 1 ≤ n) :
    collect_rollouts f n =
      Except.ok (if f.train_attacker then (n, 0) else (0, n)) := by
  obtain ⟨fa, fd, falt, fpool, fta, ftd, fop⟩ := f
  dsimp only at hatt hdef halt hpool hop hflip ⊢
  subst hatt hdef halt hpool hop
  have hzero : decide (n = 0) = false := by simp; omega
  cases ftd with
  | false =>
    rw [show fta = true from by simpa using hflip]
    have hloop := rollout_loop_counts ⟨true, true, true, true, true, false, true⟩
      rfl rfl rfl rfl n 0 0
    rw [collect_rollouts, hloop]
    dsimp only
    simp only [hzero]
    norm_num [adds_attacker, adds_defender, attacker_values_bound, defender_values_bound]
  | true =>
    rw [show fta = false from by simpa using hflip]
    have hloop := rollout_loop_counts ⟨true, true, true, true, false, true, true⟩
      rfl rfl rfl rfl n 0 0
    rw [collect_rollouts, hloop]
    dsimp only
    simp only [hzero]
    norm_num [adds_attacker, adds_defender, attacker_values_bound, defender_values_bound]

/-- Witness for the amended C4: three collection steps with a pooled
policy opponent for a non-trainable attacker. -/
theorem collect_rollouts_pool_counts_witness :
    1 ≤ 3 ∧
    collect_rollouts ⟨true, true, true, true, false, true, true⟩ 3 =
      Except.ok
        (if (⟨true, true, true, true, false, true, true⟩ : RolloutFlags).train_attacker
         then (3, 0) else (0, 3)) :=
  ⟨by decide,
    collect_rollouts_pool_counts ⟨true, true, true, true, false, true, true⟩ 3
      rfl rfl rfl rfl rfl rfl (by decide)⟩

/-- One counter mutation preserves the hack-count invariant and never
decreases the cumulative totals. -/
theorem apply_counter_event_spec (c : TrainCounters) (e : CounterEvent) :
    (counters_invariant c → counters_invariant (apply_counter_event c e)) ∧
    c.num_train_games_total ≤ (apply_counter_event c e).num_train_games_total ∧
    c.num_train_hacks_total ≤ (apply_counter_event c e).num_train_hacks_total := by
  cases e with
  | episode hacked =>
    cases hacked <;>
      (simp [counters_invariant, apply_counter_event, episode_end]; try omega)
  | logReset =>
    simp [counters_invariant, apply_counter_event, log_window_reset]

/-- Any sequence of counter mutations preserves the invariant and the
totals' monotonicity. -/
theorem run_counter_events_spec (events : List CounterEvent) :
    ∀ c : TrainCounters, counters_invariant c →
      counters_invariant (run_counter_events events c) ∧
      c.num_train_games_total ≤ (run_counter_events events c).num_train_games_total ∧
      c.num_train_hacks_total ≤ (run_counter_events events c).num_train_hacks_total := by
  induction events with
  | nil => intro c hc; exact ⟨hc, le_refl _, le_refl _⟩
  | cons e es ih =>
    intro c hc
    have hstep := apply_counter_event_spec c e
    have hrec := ih (apply_counter_event c e) (hstep.1 hc)
    exact ⟨hrec.1, le_trans hstep.2.1 hrec.2.1, le_trans hstep.2.2 hrec.2.2⟩

/-- Under the invariant, both logged hack probabilities lie in the unit
interval. -/
theorem hack_probability_bounds (c : TrainCounters) (hc : counters_invariant c) :
    0 ≤ train_hack_probability c ∧ train_hack_probability c ≤ 1 ∧
    0 ≤ train_cumulative_hack_probability c ∧ train_cumulative_hack_probability c ≤ 1 := by
  obtain ⟨h1, h2⟩ := hc
  unfold train_hack_probability train_cumulative_hack_probability
  split_ifs with h
  · obtain ⟨hg, hgt⟩ := h
    refine ⟨by positivity, ?_, by positivity, ?_⟩
    · rw [div_le_one (by exact_mod_cast hg)]
      exact_mod_cast h1
    · rw [div_le_one (by exact_mod_cast hgt)]
      exact_mod_cast h2
  · norm_num

/-- C10: whichever order episode ends and logging-window resets occur in,
the trainer's counters satisfy hacks <= games (windowed and cumulative),
the totals never decrease, and both hack probabilities of the logging
branch lie in the unit interval. -/
theorem trainer_hack_counters_invariant (events : List CounterEvent) (c : TrainCounters)
    (hc : counters_invariant c) :
    counters_invariant (run_counter_events events c) ∧
    c.num_train_games_total ≤ (run_counter_events events c).num_train_games_total ∧
    c.num_train_hacks_total ≤ (run_counter_events events c).num_train_hacks_total ∧
    0 ≤ train_hack_probability (run_counter_events events c) ∧
    train_hack_probability (run_counter_events events c) ≤ 1 ∧
    0 ≤ train_cumulative_hack_probability (run_counter_events events c) ∧
    train_cumulative_hack_probability (run_counter_events events c) ≤ 1 := by
  obtain ⟨hi, hg, hh⟩ := run_counter_events_spec events c hc
  obtain ⟨p1, p2, p3, p4⟩ := hack_probability_bounds _ hi
  exact ⟨hi, hg, hh, p1, p2, p3, p4⟩

/-- Witness for C10 from the freshly initialised counters through a hacked
episode, a logging reset and an unhacked episode. -/
theorem trainer_hack_counters_invariant_witness :
    counters_invariant initial_counters ∧
    (counters_invariant (run_counter_events
        [CounterEvent.episode true, CounterEvent.logReset, CounterEvent.episode false]
        initial_counters) ∧
      initial_counters.num_train_games_total ≤ (run_counter_events
        [CounterEvent.episode true, CounterEvent.logReset, CounterEvent.episode false]
        initial_counters).num_train_games_total ∧
      initial_counters.num_train_hacks_total ≤ (run_counter_events
        [CounterEvent.episode true, CounterEvent.logReset, CounterEvent.episode false]
        initial_counters).num_train_hacks_total ∧
      0 ≤ train_hack_probability (run_counter_events
        [CounterEvent.episode true, CounterEvent.logReset, CounterEvent.episode false]
        initial_counters) ∧
      train_hack_probability (run_counter_events
        [CounterEvent.episode true, CounterEvent.logReset, CounterEvent.episode false]
        initial_counters) ≤ 1 ∧
      0 ≤ train_cumulative_hack_probability (run_counter_events
        [CounterEvent.episode true, CounterEvent.logReset, CounterEvent.episode false]
        initial_counters) ∧
      train_cumulative_hack_probability (run_counter_events
        [CounterEvent.episode true, CounterEvent.logReset, CounterEvent.episode false]
        initial_counters) ≤ 1) :=
  ⟨by decide,
    trainer_hack_counters_invariant
      [CounterEvent.episode true, CounterEvent.logReset, CounterEvent.episode false]
      initial_counters (by decide)⟩

/-- C1: the round-trip law `get_node_id(get_node_pos(n)) == n` fails on the
code.  In the default 3 x 2 layout (num_layers = 1, num_servers_per_layer
= 2, hence 4 nodes) the scan of get_node_pos answers the EMPTY cell (0,0)
for the valid node id 0, because it compares `node_id == count` before
skipping EMPTY cells; get_node_id then returns -1 for that position, not
0. -/
theorem roundtrip_fails_on_empty_scan_cell :
    0 < (node_list 3 2).length ∧
    get_node_pos 3 2 0 = some (0, 0) ∧
    default_graph_layout 3 2 0 0 = NodeType.EMPTY ∧
    get_node_id 3 2 (0, 0) = some (-1) := by
  decide

end IdsGame
